import Mathlib

/-!
Shallow embedding of the request-routing core of the simple-load-balancer
repository (Python sources under `src/`): the data model (`src/db/models.py`),
the load-balancing algorithms (`src/algorithms/`), the sticky-session manager
(`src/core/stickey_session.py`), the proxy forwarding layer
(`src/core/proxy.py`), the retry loop of the router (`src/core/balancer.py`)
and the status writes of the health checker (`src/core/health_checker.py`).

Python dicts of strings are embedded as association lists with
first-match lookup and replace-on-set semantics; mutable process-global
state (round-robin counter, least-connection counts, sticky-session map)
is threaded explicitly; Python exceptions become `Except String`;
`time.time()` values become explicit `Int` parameters.
-/

namespace LB

/-- `InstanceStatus` enum of `src/db/models.py`. -/
inductive InstanceStatus where
  | HEALTHY
  | UNHEALTHY
  | UNKNOWN
deriving DecidableEq, Repr

/-- `Algorithm` enum of `src/db/models.py`. -/
inductive Algorithm where
  | ROUND_ROBIN
  | IP_HASH
  | LEAST_CONNECTION
  | WEIGHTED_ROUND_ROBIN
deriving DecidableEq, Repr

/-- `Instance` model of `src/db/models.py` (id, service_id, addr, status). -/
structure Instance where
  id : String
  service_id : String
  addr : String
  status : InstanceStatus
deriving DecidableEq, Repr

/-- `Service` model of `src/db/models.py`. -/
structure Service where
  id : String
  name : String
  header : String
  algorithm : Algorithm
  stateful : Bool
deriving DecidableEq, Repr

/-! ### Python string-keyed dicts as association lists -/

/-- A Python `Dict[str, str]` (e.g. an HTTP header mapping). -/
abbrev Headers := List (String × String)

/-- `d.get(k)`: first value stored under key `k`, if any. -/
def dget (d : Headers) (k : String) : Option String :=
  (d.find? (fun kv => kv.1 = k)).map (fun kv => kv.2)

/-- `d.get(k, v)`: value stored under key `k`, defaulting to `v`. -/
def dgetD (d : Headers) (k : String) (v : String) : String :=
  (dget d k).getD v

/-- `d[k] = v`: replace any binding of key `k` by the new one. -/
def dset (d : Headers) (k : String) (v : String) : Headers :=
  d.filter (fun kv => kv.1 ≠ k) ++ [(k, v)]

/-! ### Proxy forwarder (`src/core/proxy.py`) -/

/-- ASCII lowercasing of one character, as Python `str.lower()` acts on
the ASCII header names this code compares. -/
def lowerChar (c : Char) : Char :=
  if 'A' ≤ c ∧ c ≤ 'Z' then Char.ofNat (c.toNat + 32) else c

/-- Python `k.lower()` on a header name (ASCII). -/
def str_lower (s : String) : String := ⟨s.data.map lowerChar⟩

/-- The hop-by-hop header names stripped by `ProxyHandler._prepare_headers`. -/
def hop_by_hop_headers : List String :=
  ["connection", "keep-alive", "proxy-authenticate", "proxy-authorization",
   "te", "trailers", "transfer-encoding", "upgrade"]

/-- `ProxyHandler._prepare_headers`: strip hop-by-hop headers, overwrite
`Host`, append the client's origin (`X-Real-IP`, else `Remote-Addr`, the
header slot carrying the direct socket peer) to `X-Forwarded-For`, and set
`X-Forwarded-Proto` / `X-Forwarded-Host`. -/
def prepare_headers (client_headers : Headers) (instanceAddr : String) : Headers :=
  let headers := client_headers.filter
    (fun kv => ¬ hop_by_hop_headers.contains (str_lower kv.1))
  let headers := dset headers "Host" instanceAddr
  let xff0 := dgetD headers "X-Forwarded-For" ""
  let xff1 := if xff0 ≠ "" then xff0 ++ ", " else xff0
  let origin := dgetD headers "X-Real-IP" (dgetD headers "Remote-Addr" "")
  let headers := dset headers "X-Forwarded-For" (xff1 ++ origin)
  let xfp := if dget headers "X-Forwarded-Proto" = some "https" then "https" else "http"
  let headers := dset headers "X-Forwarded-Proto" xfp
  let xfh := dgetD headers "X-Forwarded-Host" (dgetD client_headers "Host" "")
  dset headers "X-Forwarded-Host" xfh

/-- The response header names stripped by `ProxyHandler._prepare_response_headers`. -/
def excluded_response_headers : List String :=
  ["content-encoding", "content-length", "transfer-encoding", "connection"]

/-- `ProxyHandler._prepare_response_headers`: keep every upstream response
header whose lower-cased name is not excluded. -/
def prepare_response_headers (response_headers : Headers) : Headers :=
  response_headers.filter
    (fun kv => ¬ excluded_response_headers.contains (str_lower kv.1))

/-- A Flask `Response` as far as the core inspects it. -/
structure Response where
  status : Nat
  headers : Headers
  body : String
deriving DecidableEq, Repr

/-- Outcome of the `requests.request` call inside `forward_request`:
either an upstream HTTP response or a `requests.RequestException`
(connection failure, timeout, interrupted read). -/
inductive UpstreamResult where
  | resp (status : Nat) (headers : Headers) (body : String)
  | exn (msg : String)
deriving DecidableEq, Repr

/-- `ProxyHandler.forward_request`, given the transport outcome: on an
upstream response it streams it back with prepared headers; on a
`requests.RequestException` it catches the exception and returns a 502
response itself (it does not re-raise). -/
def forward_request (upstream : UpstreamResult) : Response :=
  match upstream with
  | .resp s hdrs b => { status := s, headers := prepare_response_headers hdrs, body := b }
  | .exn msg =>
      { status := 502, headers := [], body := "Error forwarding request: " ++ msg }

/-! ### Sticky-session manager (`src/core/stickey_session.py`)

`time.time()` is threaded explicitly as an `Int` argument `now`; the
session dict is a function from `(client_ip, service_id)` keys to an
optional `(instance_id, timestamp)` pair. -/

/-- State of a `StickySessionManager`. -/
structure StickyState where
  sessions : String × String → Option (String × Int)
  timeout : Int
  cleanupInterval : Int
  lastCleanupTime : Int

/-- `StickySessionManager._cleanup_expired_sessions`: at most every
`cleanup_interval` seconds, delete every entry whose timestamp is
`timeout` or more seconds old. -/
def cleanup_expired_sessions (st : StickyState) (now : Int) : StickyState :=
  if now - st.lastCleanupTime < st.cleanupInterval then st
  else
    { st with
      sessions := fun k =>
        match st.sessions k with
        | some (iid, ts) => if now - ts ≥ st.timeout then none else some (iid, ts)
        | none => none
      lastCleanupTime := now }

/-- `StickySessionManager.get_sticky_instance`: opportunistic sweep, then
return the stored instance id if its timestamp is within `timeout` of now,
refreshing the timestamp; a stale entry is deleted and treated as a miss. -/
def get_sticky_instance (st : StickyState) (client_ip service_id : String) (now : Int) :
    Option String × StickyState :=
  let st := cleanup_expired_sessions st now
  match st.sessions (client_ip, service_id) with
  | some (iid, ts) =>
      if now - ts < st.timeout then
        (some iid,
         { st with sessions := fun k =>
             if k = (client_ip, service_id) then some (iid, now) else st.sessions k })
      else
        (none,
         { st with sessions := fun k =>
             if k = (client_ip, service_id) then none else st.sessions k })
  | none => (none, st)

/-- `StickySessionManager.set_sticky_instance`: overwrite the entry with
`(instance_id, now)`, then sweep opportunistically. -/
def set_sticky_instance (st : StickyState) (client_ip service_id instance_id : String)
    (now : Int) : StickyState :=
  cleanup_expired_sessions
    { st with sessions := fun k =>
        if k = (client_ip, service_id) then some (instance_id, now) else st.sessions k }
    now

/-- `StickySessionManager.remove_sticky_instance`: delete the entry if present. -/
def remove_sticky_instance (st : StickyState) (client_ip service_id : String) : StickyState :=
  { st with sessions := fun k =>
      if k = (client_ip, service_id) then none else st.sessions k }

/-! ### Round-robin (`src/algorithms/round_robin.py`)

The class-level counter `itertools.cycle(range(1_000_000))` emits
`0, 1, …, 999999, 0, 1, …`.  The shared counter state is threaded as the
number `c` of `next()` calls already made, so the value emitted by the
`c`-th call is `c % 1000000`. -/

/-- Default instance used only to give `List.getD` a placeholder; every
use below is guarded by an index-in-bounds fact. -/
def instDefault : Instance :=
  { id := "", service_id := "", addr := "", status := .UNKNOWN }

/-- Index selected by `RoundRobinAlgorithm.select_instance` at counter
state `c` over `m` instances: `next(self._counter) % len(self.instances)`. -/
def rrIndex (c m : Nat) : Nat := c % 1000000 % m

/-- `RoundRobinAlgorithm.select_instance`: raise on an empty instance
list, else return `instances[next(counter) % len(instances)]` together
with the advanced counter state. -/
def rr_select_instance (instances : List Instance) (c : Nat) :
    Except String (Instance × Nat) :=
  if instances.isEmpty then .error "No instances available"
  else .ok (instances.getD (rrIndex c instances.length) instDefault, c + 1)

/-! ### IP-hash (`src/algorithms/ip_hash.py`)

The source hashes the client IP with MD5 and interprets the hex digest as
an unsigned integer; no claim here depends on actual digest values, so the
digest function `hash` is a parameter (in the source it is
`int(hashlib.md5(client_ip.encode()).hexdigest(), 16)`). -/

/-- `IpHashAlgorithm.__init__` followed by `select_instance`: the
constructor raises when `client_ip` is the empty string, `select_instance`
raises on an empty instance list and otherwise returns
`instances[hash(client_ip) % len(instances)]`. -/
def ip_hash_select_instance (hash : String → Nat) (instances : List Instance)
    (client_ip : String) : Except String Instance :=
  if client_ip = "" then .error "Client IP is required for IP Hash algorithm"
  else if instances.isEmpty then .error "No instances available"
  else .ok (instances.getD (hash client_ip % instances.length) instDefault)

/-! ### Least-connection (`src/algorithms/least_connection.py`)

The class-level `_connections` dict is threaded as a function
`String → Int` (a missing key reads as `0`, matching `dict.get(id, 0)`;
the values the code stores are produced only by the operations below). -/

/-- `LeastConnectionAlgorithm.increment_connections`:
`_connections[id] = _connections.get(id, 0) + 1`. -/
def increment_connections (conns : String → Int) (instance_id : String) : String → Int :=
  fun k => if k = instance_id then conns instance_id + 1 else conns k

/-- `LeastConnectionAlgorithm.decrement_connections`: decrement only when
the stored count is positive, else leave the map unchanged. -/
def decrement_connections (conns : String → Int) (instance_id : String) : String → Int :=
  if conns instance_id > 0 then
    fun k => if k = instance_id then conns instance_id - 1 else conns k
  else conns

/-- The scan inside `LeastConnectionAlgorithm.select_instance`: walk the
input, keeping the first instance whose count is strictly smaller than the
best so far (`min_connections` starts at infinity, so the first instance
always replaces it). -/
def lc_scan (conns : String → Int) (instances : List Instance) : Option Instance :=
  instances.foldl
    (fun best inst =>
      match best with
      | none => some inst
      | some b => if conns inst.id < conns b.id then some inst else best)
    none

/-- `LeastConnectionAlgorithm.select_instance`: raise on an empty list,
pick the first minimum-count instance, increment its count; the
`selected_instance` fallback to `instances[0]` is unreachable for a
non-empty list. -/
def lc_select_instance (conns : String → Int) (instances : List Instance) :
    Except String (Instance × (String → Int)) :=
  if instances.isEmpty then .error "No instances available"
  else
    match lc_scan conns instances with
    | some inst => .ok (inst, increment_connections conns inst.id)
    | none => .ok (instances.getD 0 instDefault, conns)

/-! ### Weighted round-robin (`src/algorithms/weighted_round_robin.py`) -/

/-- Weight assigned by `WeightedRoundRobinAlgorithm.__init__` to the
instance at position `i` of the input: `i + 1` for the first three
positions, `1` afterwards. -/
def wrrWeight (i : Nat) : Nat := if i < 3 then i + 1 else 1

/-- The expanded sequence built by
`WeightedRoundRobinAlgorithm.select_instance`: each instance repeated
`weight` times in input order. -/
def wrrExpansion (instances : List Instance) : List Instance :=
  instances.enum.flatMap (fun p => List.replicate (wrrWeight p.1) p.2)

/-- `WeightedRoundRobinAlgorithm.select_instance`: raise on an empty
instance list, return the first instance if the expansion is empty, else
apply the shared cycling counter to the expansion. -/
def wrr_select_instance (instances : List Instance) (c : Nat) :
    Except String (Instance × Nat) :=
  if instances.isEmpty then .error "No instances available"
  else
    let weighted := wrrExpansion instances
    if weighted.isEmpty then .ok (instances.getD 0 instDefault, c)
    else .ok (weighted.getD (c % 1000000 % weighted.length) instDefault, c + 1)

/-! ### Algorithm factory (`src/algorithms/algorithm_factory.py`) -/

/-- The keys of `AlgorithmFactory._algorithms`: the dispatch dict maps
only `ROUND_ROBIN`, `IP_HASH` and `LEAST_CONNECTION` to implementations. -/
def factory_table : List Algorithm :=
  [.ROUND_ROBIN, .IP_HASH, .LEAST_CONNECTION]

/-- `AlgorithmFactory.get_algorithm` at the dispatch level: look the tag
up in `_algorithms` and raise `ValueError` when it is not a key. -/
def get_algorithm_tag (algorithm_type : Algorithm) : Except String Algorithm :=
  if algorithm_type ∈ factory_table then .ok algorithm_type
  else .error "Algorithm not supported"

/-! ### Router retry loop (`src/core/balancer.py`, `_route_with_retries`)

The collaborators the loop calls are passed as functions: `select` is
`_select_instance` (which catches every selection error and returns
`None`), `forward` is the proxy call as the loop observes it (`.ok` a
response, `.error` an exception message), and `regOk` tells whether the
best-effort `db.update_instance_status` write succeeds.  The loop records
the side effects it performs in a trace of events. -/

deriving instance DecidableEq for Except

/-- Observable side effects of one run of `_route_with_retries`. -/
inductive Ev where
  | fwd (id : String) (r : Except String Response)
  | stickyForget
  | mark (id : String) (st : InstanceStatus) (ok : Bool)
  | stickyRemember (id : String)
deriving DecidableEq, Repr

/-- The `503` response built when the retry loop exhausts (or breaks out
of) the available instance set. -/
def all_failed_response (lastErr : Option String) : Response :=
  { status := 503, headers := [],
    body := "All instances failed to process the request" ++
      (match lastErr with | some e => ": " ++ e | none => "") }

/-- `LoadBalancer._route_with_retries`: while instances remain, select
one; break if selection fails or returns an already-tried instance;
forward; on success return the response (remembering the sticky mapping
for a stateful service when the status is < 500); on an exception forget
the sticky mapping (stateful case), mark the instance unhealthy
best-effort, drop it from the working set and retry.  `fuel` bounds the
recursion; `available.length` is always enough. -/
def route_with_retries (select : List Instance → Option Instance)
    (forward : Instance → Except String Response) (regOk : String → Bool)
    (stateful : Bool) :
    Nat → List Instance → List String → Option String → List Ev × Response
  | 0, _, _, lastErr => ([], all_failed_response lastErr)
  | fuel + 1, available, tried, lastErr =>
    if available.isEmpty then ([], all_failed_response lastErr)
    else
      match select available with
      | none => ([], all_failed_response lastErr)
      | some inst =>
        if inst.id ∈ tried then ([], all_failed_response lastErr)
        else
          match forward inst with
          | .ok resp =>
              if stateful ∧ resp.status < 500 then
                ([.fwd inst.id (.ok resp), .stickyRemember inst.id], resp)
              else ([.fwd inst.id (.ok resp)], resp)
          | .error e =>
              let evs := Ev.fwd inst.id (.error e) ::
                ((if stateful then [Ev.stickyForget] else []) ++
                  [Ev.mark inst.id .UNHEALTHY (regOk inst.id)])
              let rest := route_with_retries select forward regOk stateful fuel
                (available.filter (fun i => i.id ≠ inst.id)) (inst.id :: tried) (some e)
              (evs ++ rest.1, rest.2)

/-- `LoadBalancer._select_instance` for a non-stateful service whose
algorithm is IP-hash: the factory constructs `IpHashAlgorithm` and
`select_instance` runs; every exception is caught and turned into `None`. -/
def select_instance_ip_hash (hash : String → Nat) (instances : List Instance)
    (client_ip : String) : Option Instance :=
  match ip_hash_select_instance hash instances client_ip with
  | .ok i => some i
  | .error _ => none

/-- `LoadBalancer._select_instance` for a non-stateful service whose
algorithm is round-robin, at shared counter state `c`. -/
def select_instance_round_robin (c : Nat) (instances : List Instance) : Option Instance :=
  match rr_select_instance instances c with
  | .ok (i, _) => some i
  | .error _ => none

/-! ### Health-checker status writes (`src/core/health_checker.py`) -/

/-- The health computed by the probe loop of
`HealthChecker._check_instance`: up to `retries` GET attempts, stopping at
the first that returns any HTTP response; `probes` lists the outcome each
attempt would have (`true` = some response, `false` = network error or
timeout). -/
def compute_is_healthy (probes : List Bool) (retries : Nat) : Bool :=
  (probes.take retries).any id

/-- The status `HealthChecker._check_instance` writes through
`db.update_instance_status`, if any: `HEALTHY` or `UNHEALTHY` from the
probe outcome, persisted only when it differs from the stored status. -/
def check_instance_status_write (stored : InstanceStatus) (probes : List Bool)
    (retries : Nat) : Option InstanceStatus :=
  let newStatus : InstanceStatus :=
    if compute_is_healthy probes retries then .HEALTHY else .UNHEALTHY
  if newStatus ≠ stored then some newStatus else none

/-- The status `HealthChecker.mark_unhealthy` writes through
`db.update_instance_status`. -/
def mark_unhealthy_status_write : InstanceStatus := .UNHEALTHY

/-! ### Helper lemmas about the header-dict operations -/

lemma dget_append (d₁ d₂ : Headers) (k : String) :
    dget (d₁ ++ d₂) k = (dget d₁ k).or (dget d₂ k) := by
  rw [dget, List.find?_append]
  cases h : d₁.find? (fun kv => kv.1 = k) <;> simp [dget, h]

/-- Filtering by a key-determined predicate that holds at `k` does not
change the first entry found for `k`. -/
lemma find?_filter_key (d : Headers) (q : String → Bool) (k : String) (hq : q k = true) :
    (d.filter (fun kv => q kv.1)).find? (fun kv => kv.1 = k)
      = d.find? (fun kv => kv.1 = k) := by
  induction d with
  | nil => rfl
  | cons a d ih =>
    simp only [List.filter_cons]
    by_cases hqa : q a.1 = true
    · simp only [hqa, if_true, List.find?_cons]
      cases h : (decide (a.1 = k)) <;> simp [h, ih]
    · have hak : a.1 ≠ k := fun hh => hqa (hh ▸ hq)
      rw [if_neg hqa, List.find?_cons]
      simp [hak, ih]

lemma dget_filter_key (d : Headers) (q : String → Bool) (k : String) (hq : q k = true) :
    dget (d.filter (fun kv => q kv.1)) k = dget d k := by
  rw [dget, dget, find?_filter_key d q k hq]

lemma dget_dset_self (d : Headers) (k v : String) : dget (dset d k v) k = some v := by
  have h : (d.filter (fun kv => kv.1 ≠ k)).find? (fun kv => kv.1 = k) = none := by
    rw [List.find?_eq_none]
    intro kv hkv
    have := (List.mem_filter.1 hkv).2
    simpa using this
  rw [dset, dget, List.find?_append, h]
  simp [List.find?_cons]

lemma dget_dset_ne (d : Headers) (k v k' : String) (h : k' ≠ k) :
    dget (dset d k v) k' = dget d k' := by
  rw [dset, dget_append]
  have hkk : k ≠ k' := fun hh => h hh.symm
  have h2 : dget [(k, v)] k' = none := by
    simp [dget, List.find?_cons, hkk]
  have h1 : dget (d.filter (fun kv => kv.1 ≠ k)) k' = dget d k' := by
    have := find?_filter_key d (fun s => decide (s ≠ k)) k' (by simpa using h)
    rw [dget, dget]
    exact congrArg _ this
  rw [h1, h2, Option.or_none]

lemma dgetD_dset_ne (d : Headers) (k v k' dflt : String) (h : k' ≠ k) :
    dgetD (dset d k v) k' dflt = dgetD d k' dflt := by
  rw [dgetD, dgetD, dget_dset_ne d k v k' h]

lemma mem_dset {d : Headers} {k v : String} {kv : String × String} :
    kv ∈ dset d k v → kv ∈ d ∨ kv = (k, v) := by
  intro h
  rcases List.mem_append.1 h with h | h
  · exact Or.inl (List.mem_filter.1 h).1
  · simp only [List.mem_singleton] at h
    exact Or.inr h

/-! ### C5 and C8: header rewriting -/

/-- **C5.** For every outgoing upstream request, `_prepare_headers` sets
`X-Forwarded-For` to the prior chain (comma-separated, when non-empty)
followed by the client's origin, where the origin is the `X-Real-IP`
value if present and otherwise the direct socket peer (the `Remote-Addr`
slot the code reads); in particular a request bearing
`X-Real-IP: 9.9.9.9` and no prior chain reaches upstream with
`X-Forwarded-For` exactly `9.9.9.9`. -/
theorem x_forwarded_for_appends_client_origin :
    (∀ (client_headers : Headers) (addr : String),
      dget (prepare_headers client_headers addr) "X-Forwarded-For" =
        some ((if dgetD client_headers "X-Forwarded-For" "" ≠ "" then
                 dgetD client_headers "X-Forwarded-For" "" ++ ", "
               else dgetD client_headers "X-Forwarded-For" "") ++
              dgetD client_headers "X-Real-IP"
                (dgetD client_headers "Remote-Addr" ""))) ∧
    (∀ addr : String,
      dget (prepare_headers
          [("Host", "svc"), ("Connection", "keep-alive"), ("X-Real-IP", "9.9.9.9")] addr)
        "X-Forwarded-For" = some "9.9.9.9") := by
  constructor
  · intro ch addr
    show dget (dset (dset (dset _ "X-Forwarded-For" _) "X-Forwarded-Proto" _)
        "X-Forwarded-Host" _) "X-Forwarded-For" = _
    rw [dget_dset_ne _ _ _ _ (by decide), dget_dset_ne _ _ _ _ (by decide),
      dget_dset_self]
    have hhost : ∀ k, k = "X-Forwarded-For" ∨ k = "X-Real-IP" ∨ k = "Remote-Addr" →
        dget (dset (ch.filter (fun kv => ¬ hop_by_hop_headers.contains (str_lower kv.1)))
            "Host" addr) k = dget ch k := by
      rintro k (rfl | rfl | rfl) <;>
      · rw [dget_dset_ne _ _ _ _ (by decide)]
        exact dget_filter_key ch
          (fun s => decide ¬ (hop_by_hop_headers.contains (str_lower s) = true)) _ (by decide)
    simp only [dgetD, hhost _ (Or.inl rfl), hhost _ (Or.inr (Or.inl rfl)),
      hhost _ (Or.inr (Or.inr rfl))]
  · intro addr
    show dget (dset (dset (dset _ "X-Forwarded-For" _) "X-Forwarded-Proto" _)
        "X-Forwarded-Host" _) "X-Forwarded-For" = _
    rw [dget_dset_ne _ _ _ _ (by decide), dget_dset_ne _ _ _ _ (by decide),
      dget_dset_self]
    rfl

/-- **C8.** No hop-by-hop header (matched case-insensitively) appears in
the outgoing upstream request headers built by `_prepare_headers`, and
none of `Content-Length`, `Transfer-Encoding`, `Connection`,
`Content-Encoding` appears in the downstream response headers built by
`_prepare_response_headers`. -/
theorem header_hygiene :
    (∀ (client_headers : Headers) (addr : String) (kv : String × String),
        kv ∈ prepare_headers client_headers addr →
        ¬ hop_by_hop_headers.contains (str_lower kv.1)) ∧
    (∀ (response_headers : Headers) (kv : String × String),
        kv ∈ prepare_response_headers response_headers →
        ¬ excluded_response_headers.contains (str_lower kv.1)) := by
  constructor
  · intro ch addr kv hmem
    rcases mem_dset hmem with hmem | rfl
    · rcases mem_dset hmem with hmem | rfl
      · rcases mem_dset hmem with hmem | rfl
        · rcases mem_dset hmem with hmem | rfl
          · have := (List.mem_filter.1 hmem).2
            simpa using this
          · exact (by decide : ¬ hop_by_hop_headers.contains (str_lower "Host") = true)
        · exact (by decide : ¬ hop_by_hop_headers.contains (str_lower "X-Forwarded-For") = true)
      · exact (by decide : ¬ hop_by_hop_headers.contains (str_lower "X-Forwarded-Proto") = true)
    · exact (by decide : ¬ hop_by_hop_headers.contains (str_lower "X-Forwarded-Host") = true)
  · intro rh kv hmem
    have := (List.mem_filter.1 hmem).2
    simpa using this

/-! ### Trace lemmas for the retry loop -/

/-- Ids of the instances forwarded to, in order, in a trace. -/
def fwdIds (tr : List Ev) : List String :=
  tr.filterMap (fun ev => match ev with | .fwd id _ => some id | _ => none)

lemma mem_fwdIds {tr : List Ev} {id : String} :
    id ∈ fwdIds tr ↔ ∃ r, Ev.fwd id r ∈ tr := by
  constructor
  · intro h
    rcases List.mem_filterMap.1 h with ⟨ev, hev, hmap⟩
    cases ev with
    | fwd id' r => simp at hmap; exact ⟨r, hmap ▸ hev⟩
    | stickyForget => simp at hmap
    | mark _ _ _ => simp at hmap
    | stickyRemember _ => simp at hmap
  · rintro ⟨r, hr⟩
    exact List.mem_filterMap.2 ⟨Ev.fwd id r, hr, rfl⟩

/-- Every instance forwarded to inside the loop was not in the `tried`
set the loop started with. -/
lemma fwd_mem_not_tried (select : List Instance → Option Instance)
    (forward : Instance → Except String Response) (regOk : String → Bool)
    (stateful : Bool) :
    ∀ (fuel : Nat) (available : List Instance) (tried : List String)
      (lastErr : Option String) (id : String) (r : Except String Response),
      Ev.fwd id r ∈
        (route_with_retries select forward regOk stateful fuel available tried lastErr).1 →
      id ∉ tried := by
  intro fuel
  induction fuel with
  | zero =>
    intro _ _ _ _ _ h
    simp [route_with_retries] at h
  | succ fuel ih =>
    intro available tried lastErr id r h
    rw [route_with_retries] at h
    split at h
    · simp at h
    · split at h
      · simp at h
      · rename_i inst _
        split at h
        · simp at h
        · rename_i hni
          split at h
          · split at h <;>
            · simp only [List.mem_cons, List.mem_singleton, List.not_mem_nil, or_false] at h
              first
              | (rcases h with h | h
                 · cases h; exact hni
                 · cases h)
              | (cases h; exact hni)
          · simp only [List.cons_append, List.mem_cons, List.mem_append] at h
            rcases h with h | h
            · cases h; exact hni
            · rcases h with h | h
              · exfalso
                split at h <;> simp at h
              · have := ih _ _ _ _ _ h
                intro hmem
                exact this (List.mem_cons_of_mem _ hmem)

/-- The loop never forwards to the same instance id twice in one routed
request. -/
lemma fwdIds_nodup (select : List Instance → Option Instance)
    (forward : Instance → Except String Response) (regOk : String → Bool)
    (stateful : Bool) :
    ∀ (fuel : Nat) (available : List Instance) (tried : List String)
      (lastErr : Option String),
      (fwdIds
        (route_with_retries select forward regOk stateful fuel available tried lastErr).1).Nodup := by
  intro fuel
  induction fuel with
  | zero =>
    intro _ _ _
    simp [route_with_retries, fwdIds]
  | succ fuel ih =>
    intro available tried lastErr
    rw [route_with_retries]
    by_cases hne : available.isEmpty = true
    · simp [hne, fwdIds]
    · rw [if_neg hne]
      cases heqsel : select available with
      | none => simp [fwdIds]
      | some inst =>
        dsimp only
        by_cases hni : inst.id ∈ tried
        · simp [hni, fwdIds]
        · rw [if_neg hni]
          cases heqf : forward inst with
          | ok resp =>
            dsimp only
            by_cases hst : (stateful = true ∧ resp.status < 500)
            · rw [if_pos hst]; simp [fwdIds]
            · rw [if_neg hst]; simp [fwdIds]
          | error estr =>
            dsimp only
            have hids : ∀ tr : List Ev, fwdIds (Ev.fwd inst.id (.error estr) ::
                ((if stateful = true then [Ev.stickyForget] else []) ++
                  [Ev.mark inst.id .UNHEALTHY (regOk inst.id)]) ++ tr) =
                inst.id :: fwdIds tr := by
              intro tr
              simp only [fwdIds, List.cons_append, List.filterMap_cons, List.filterMap_append]
              by_cases hsf : stateful = true <;> simp [hsf]
            simp only [List.cons_append] at hids ⊢
            rw [hids]
            refine List.nodup_cons.2 ⟨?_, ih _ _ _⟩
            intro hmem
            rcases mem_fwdIds.1 hmem with ⟨r, hr⟩
            exact fwd_mem_not_tried select forward regOk stateful _ _ _ _ _ _ hr
              (List.mem_cons_self _ _)

/-- After a failed forward the loop records a best-effort unhealthy mark
for that instance id. -/
lemma fail_implies_mark (select : List Instance → Option Instance)
    (forward : Instance → Except String Response) (regOk : String → Bool)
    (stateful : Bool) :
    ∀ (fuel : Nat) (available : List Instance) (tried : List String)
      (lastErr : Option String) (id : String) (e : String),
      Ev.fwd id (.error e) ∈
        (route_with_retries select forward regOk stateful fuel available tried lastErr).1 →
      Ev.mark id .UNHEALTHY (regOk id) ∈
        (route_with_retries select forward regOk stateful fuel available tried lastErr).1 := by
  intro fuel
  induction fuel with
  | zero =>
    intro _ _ _ _ _ h
    simp [route_with_retries] at h
  | succ fuel ih =>
    intro available tried lastErr id e h
    rw [route_with_retries] at h ⊢
    by_cases hne : available.isEmpty = true
    · simp [hne] at h
    · rw [if_neg hne] at h ⊢
      cases heqsel : select available with
      | none => simp [heqsel] at h
      | some inst =>
        rw [heqsel] at h
        dsimp only at h ⊢
        by_cases hni : inst.id ∈ tried
        · simp [hni] at h
        · rw [if_neg hni] at h ⊢
          cases heqf : forward inst with
          | ok resp =>
            exfalso
            rw [heqf] at h
            dsimp only at h
            by_cases hst : (stateful = true ∧ resp.status < 500)
            · rw [if_pos hst] at h; simp at h
            · rw [if_neg hst] at h; simp at h
          | error estr =>
            rw [heqf] at h
            dsimp only at h ⊢
            simp only [List.cons_append, List.mem_cons, List.mem_append] at h ⊢
            rcases h with h | h | h
            · cases h
              right; left
              by_cases hsf : stateful = true <;> simp [hsf]
            · exfalso
              by_cases hsf : stateful = true <;> simp [hsf] at h
            · right; right
              exact ih _ _ _ _ _ h

/-- Every status a mark event in the loop trace writes is `UNHEALTHY`. -/
lemma mark_status_unhealthy (select : List Instance → Option Instance)
    (forward : Instance → Except String Response) (regOk : String → Bool)
    (stateful : Bool) :
    ∀ (fuel : Nat) (available : List Instance) (tried : List String)
      (lastErr : Option String) (id : String) (st : InstanceStatus) (ok : Bool),
      Ev.mark id st ok ∈
        (route_with_retries select forward regOk stateful fuel available tried lastErr).1 →
      st = .UNHEALTHY := by
  intro fuel
  induction fuel with
  | zero =>
    intro _ _ _ _ _ _ h
    simp [route_with_retries] at h
  | succ fuel ih =>
    intro available tried lastErr id st ok h
    rw [route_with_retries] at h
    by_cases hne : available.isEmpty = true
    · simp [hne] at h
    · rw [if_neg hne] at h
      cases heqsel : select available with
      | none => simp [heqsel] at h
      | some inst =>
        rw [heqsel] at h
        dsimp only at h
        by_cases hni : inst.id ∈ tried
        · simp [hni] at h
        · rw [if_neg hni] at h
          cases heqf : forward inst with
          | ok resp =>
            exfalso
            rw [heqf] at h
            dsimp only at h
            by_cases hst : (stateful = true ∧ resp.status < 500)
            · rw [if_pos hst] at h; simp at h
            · rw [if_neg hst] at h; simp at h
          | error estr =>
            rw [heqf] at h
            dsimp only at h
            simp only [List.cons_append, List.mem_cons, List.mem_append] at h
            rcases h with h | h | h
            · cases h
            · by_cases hsf : stateful = true <;> simp [hsf] at h <;> exact h.2.1
            · exact ih _ _ _ _ _ _ h

/-! ### C9 and C10 -/

/-- **C9.** Within a single routed request, after a forward to an
instance fails the loop records a best-effort unhealthy status write for
that instance (succeeding or not according to the registry, which is
never consulted for control flow), and that instance id never appears in
a later forward of the same request: the forwarded ids of a whole run are
pairwise distinct. -/
theorem failed_instance_marked_and_never_retried
    (select : List Instance → Option Instance)
    (forward : Instance → Except String Response) (regOk : String → Bool)
    (stateful : Bool) (fuel : Nat) (available : List Instance)
    (tried : List String) (lastErr : Option String) :
    (fwdIds
      (route_with_retries select forward regOk stateful fuel available tried lastErr).1).Nodup ∧
    (∀ (id : String) (e : String),
      Ev.fwd id (.error e) ∈
        (route_with_retries select forward regOk stateful fuel available tried lastErr).1 →
      Ev.mark id .UNHEALTHY (regOk id) ∈
        (route_with_retries select forward regOk stateful fuel available tried lastErr).1) :=
  ⟨fwdIds_nodup select forward regOk stateful fuel available tried lastErr,
   fun id e h => fail_implies_mark select forward regOk stateful fuel available tried lastErr id e h⟩

/-- **C10.** Every status value the core writes to the registry — the
health checker's probe loop, its `mark_unhealthy`, and the router's
forward-failure path — is `HEALTHY` or `UNHEALTHY`, never `UNKNOWN`. -/
theorem core_status_writes_never_unknown :
    (∀ (stored : InstanceStatus) (probes : List Bool) (retries : Nat) (s : InstanceStatus),
        check_instance_status_write stored probes retries = some s →
        s = .HEALTHY ∨ s = .UNHEALTHY) ∧
    (mark_unhealthy_status_write = .UNHEALTHY) ∧
    (∀ (select : List Instance → Option Instance)
        (forward : Instance → Except String Response) (regOk : String → Bool)
        (stateful : Bool) (fuel : Nat) (available : List Instance)
        (tried : List String) (lastErr : Option String)
        (id : String) (st : InstanceStatus) (ok : Bool),
        Ev.mark id st ok ∈
          (route_with_retries select forward regOk stateful fuel available tried lastErr).1 →
        st = .UNHEALTHY) := by
  refine ⟨?_, rfl, ?_⟩
  · intro stored probes retries s h
    simp only [check_instance_status_write] at h
    by_cases hb : compute_is_healthy probes retries = true
    · left
      rw [if_pos hb] at h
      by_cases hd : (InstanceStatus.HEALTHY ≠ stored)
      · rw [if_pos hd] at h
        exact (Option.some.inj h).symm
      · rw [if_neg hd] at h
        cases h
    · right
      rw [if_neg hb] at h
      by_cases hd : (InstanceStatus.UNHEALTHY ≠ stored)
      · rw [if_pos hd] at h
        exact (Option.some.inj h).symm
      · rw [if_neg hd] at h
        cases h
  · intro select forward regOk stateful fuel available tried lastErr id st ok h
    exact mark_status_unhealthy select forward regOk stateful fuel available tried lastErr
      id st ok h

/-! ### C6: sticky sessions -/

lemma cleanup_timeout (st : StickyState) (now : Int) :
    (cleanup_expired_sessions st now).timeout = st.timeout := by
  rw [cleanup_expired_sessions]
  split <;> rfl

lemma cleanup_sessions (st : StickyState) (now : Int) (k : String × String) :
    (cleanup_expired_sessions st now).sessions k =
      if now - st.lastCleanupTime < st.cleanupInterval then st.sessions k
      else
        match st.sessions k with
        | some (iid, ts) => if now - ts ≥ st.timeout then none else some (iid, ts)
        | none => none := by
  rw [cleanup_expired_sessions]
  split <;> rfl

/-- **C6.** After `remember(client_ip, service_id, instance_id)` at time
`t0`, a `lookup(client_ip, service_id)` at time `t1` returns
`instance_id` iff fewer than TTL (`timeout`) seconds have elapsed; on a
hit the stored timestamp is refreshed to `t1`; an entry `timeout` or more
seconds old is deleted and treated as a miss; and an intervening `forget`
makes the lookup a miss. -/
theorem sticky_lookup_after_remember
    (st : StickyState) (client_ip service_id instance_id : String) (t0 t1 : Int)
    (hT : 0 < st.timeout) :
    (((get_sticky_instance (set_sticky_instance st client_ip service_id instance_id t0)
          client_ip service_id t1).1 = some instance_id) ↔ t1 - t0 < st.timeout) ∧
    (t1 - t0 < st.timeout →
      (get_sticky_instance (set_sticky_instance st client_ip service_id instance_id t0)
          client_ip service_id t1).2.sessions (client_ip, service_id)
        = some (instance_id, t1)) ∧
    (st.timeout ≤ t1 - t0 →
      (get_sticky_instance (set_sticky_instance st client_ip service_id instance_id t0)
          client_ip service_id t1).2.sessions (client_ip, service_id) = none) ∧
    ((get_sticky_instance
        (remove_sticky_instance
          (set_sticky_instance st client_ip service_id instance_id t0) client_ip service_id)
        client_ip service_id t1).1 = none) := by
  set st1 := set_sticky_instance st client_ip service_id instance_id t0 with hst1
  have hT1 : st1.timeout = st.timeout := by
    rw [hst1, set_sticky_instance, cleanup_timeout]
  have hwrite : st1.sessions (client_ip, service_id) = some (instance_id, t0) := by
    rw [hst1, set_sticky_instance, cleanup_sessions]
    dsimp only
    rw [if_pos rfl]
    dsimp only
    split
    · rfl
    · rw [if_neg (by omega)]
  have hT2 : (cleanup_expired_sessions st1 t1).timeout = st.timeout := by
    rw [cleanup_timeout, hT1]
  have hs2hit : t1 - t0 < st.timeout →
      (cleanup_expired_sessions st1 t1).sessions (client_ip, service_id)
        = some (instance_id, t0) := by
    intro hlt
    rw [cleanup_sessions, hwrite]
    split
    · rfl
    · dsimp only
      rw [if_neg (by omega)]
  refine ⟨?_, ?_, ?_, ?_⟩
  · by_cases hlt : t1 - t0 < st.timeout
    · rw [get_sticky_instance]
      simp only [hs2hit hlt, hT2]
      rw [if_pos (by omega)]
      simp [hlt]
    · rw [get_sticky_instance]
      by_cases hsweep : t1 - st1.lastCleanupTime < st1.cleanupInterval
      · have hs2 : (cleanup_expired_sessions st1 t1).sessions (client_ip, service_id)
            = some (instance_id, t0) := by
          rw [cleanup_sessions, hwrite, if_pos hsweep]
        simp only [hs2, hT2]
        rw [if_neg (by omega)]
        simp [hlt]
      · have hs2 : (cleanup_expired_sessions st1 t1).sessions (client_ip, service_id)
            = none := by
          rw [cleanup_sessions, hwrite, if_neg hsweep]
          dsimp only
          rw [if_pos (by omega)]
        simp [hs2, hlt]
  · intro hlt
    rw [get_sticky_instance]
    simp only [hs2hit hlt, hT2]
    rw [if_pos (by omega)]
    simp
  · intro hge
    rw [get_sticky_instance]
    by_cases hsweep : t1 - st1.lastCleanupTime < st1.cleanupInterval
    · have hs2 : (cleanup_expired_sessions st1 t1).sessions (client_ip, service_id)
          = some (instance_id, t0) := by
        rw [cleanup_sessions, hwrite, if_pos hsweep]
      simp only [hs2, hT2]
      rw [if_neg (by omega)]
      simp
    · have hs2 : (cleanup_expired_sessions st1 t1).sessions (client_ip, service_id)
          = none := by
        rw [cleanup_sessions, hwrite, if_neg hsweep]
        dsimp only
        rw [if_pos (by omega)]
      simp [hs2]
  · have hforget : (remove_sticky_instance st1 client_ip service_id).sessions
        (client_ip, service_id) = none := by
      rw [remove_sticky_instance]
      simp
    have hs2 : (cleanup_expired_sessions
        (remove_sticky_instance st1 client_ip service_id) t1).sessions
          (client_ip, service_id) = none := by
      rw [cleanup_sessions, hforget]
      split <;> rfl
    rw [get_sticky_instance]
    simp [hs2]

/-! ### C7: least-connection counters

An interleaving of `select`/`release` calls for one instance is a list of
ops folded over the shared `_connections` state. -/

/-- One call against the least-connection counters: `select` is
`select_instance` (which increments the chosen instance), `release` is
`decrement_connections`. -/
inductive LCOp where
  | select
  | release
deriving DecidableEq, Repr

/-- Apply one op for instance list `instances`, releasing `rid`. -/
def lc_apply (instances : List Instance) (rid : String) (conns : String → Int) :
    LCOp → (String → Int)
  | .select =>
      match lc_select_instance conns instances with
      | .ok (_, conns2) => conns2
      | .error _ => conns
  | .release => decrement_connections conns rid

/-- Run a sequence of ops over the shared `_connections` state. -/
def lc_run (instances : List Instance) (rid : String) (conns : String → Int)
    (ops : List LCOp) : String → Int :=
  ops.foldl (lc_apply instances rid) conns

/-- Number of `select` ops. -/
def lc_selects : List LCOp → Nat
  | [] => 0
  | .select :: ops => lc_selects ops + 1
  | .release :: ops => lc_selects ops

/-- Number of `release` ops. -/
def lc_releases : List LCOp → Nat
  | [] => 0
  | .select :: ops => lc_releases ops
  | .release :: ops => lc_releases ops + 1

lemma lc_select_single (conns : String → Int) (inst : Instance) :
    lc_select_instance conns [inst] = .ok (inst, increment_connections conns inst.id) := by
  rw [lc_select_instance]
  simp [lc_scan]

lemma lc_run_nonneg (inst : Instance) :
    ∀ (ops : List LCOp) (conns : String → Int),
      (∀ k, 0 ≤ conns k) → ∀ k, 0 ≤ lc_run [inst] inst.id conns ops k := by
  intro ops
  induction ops with
  | nil => intro conns h k; exact h k
  | cons op ops ih =>
    intro conns h k
    refine ih _ ?_ k
    cases op with
    | select =>
      intro k2
      rw [lc_apply, lc_select_single]
      show 0 ≤ increment_connections conns inst.id k2
      rw [increment_connections]
      show 0 ≤ if k2 = inst.id then conns inst.id + 1 else conns k2
      split
      · have := h inst.id
        omega
      · exact h k2
    | release =>
      intro k2
      rw [lc_apply, decrement_connections]
      split
      · rename_i hpos
        show 0 ≤ if k2 = inst.id then conns inst.id - 1 else conns k2
        split
        · omega
        · exact h k2
      · exact h k2

lemma lc_run_value (inst : Instance) :
    ∀ (ops : List LCOp) (conns : String → Int),
      (∀ n, (lc_releases (ops.take n) : Int) ≤ conns inst.id + lc_selects (ops.take n)) →
      lc_run [inst] inst.id conns ops inst.id
        = conns inst.id + lc_selects ops - lc_releases ops := by
  intro ops
  induction ops with
  | nil =>
    intro conns _
    show conns inst.id = conns inst.id + lc_selects [] - lc_releases []
    rw [lc_selects, lc_releases]
    omega
  | cons op ops ih =>
    intro conns hpre
    cases op with
    | select =>
      have hstep : lc_apply [inst] inst.id conns .select = increment_connections conns inst.id := by
        rw [lc_apply, lc_select_single]
      have hval : (increment_connections conns inst.id) inst.id = conns inst.id + 1 := by
        rw [increment_connections]
        simp
      have := ih (increment_connections conns inst.id) (by
        intro n
        have h2 := hpre (n + 1)
        rw [List.take_succ_cons] at h2
        rw [lc_selects, lc_releases] at h2
        rw [hval]
        push_cast at h2 ⊢
        omega)
      show lc_run [inst] inst.id (lc_apply [inst] inst.id conns .select) ops inst.id = _
      rw [hstep, this, hval, lc_selects, lc_releases]
      push_cast
      omega
    | release =>
      have hge : (1 : Int) ≤ conns inst.id := by
        have h1 := hpre 1
        rw [List.take_succ_cons, List.take_zero] at h1
        rw [lc_selects, lc_releases] at h1
        rw [lc_selects, lc_releases] at h1
        push_cast at h1
        omega
      have hstep : lc_apply [inst] inst.id conns .release =
          fun k => if k = inst.id then conns inst.id - 1 else conns k := by
        rw [lc_apply, decrement_connections, if_pos (by omega)]
      have hval : (fun k => if k = inst.id then conns inst.id - 1 else conns k) inst.id
          = conns inst.id - 1 := by simp
      have := ih (fun k => if k = inst.id then conns inst.id - 1 else conns k) (by
        intro n
        have h2 := hpre (n + 1)
        rw [List.take_succ_cons] at h2
        rw [lc_selects, lc_releases] at h2
        rw [hval]
        push_cast at h2 ⊢
        omega)
      show lc_run [inst] inst.id (lc_apply [inst] inst.id conns .release) ops inst.id = _
      rw [hstep, this, hval, lc_selects, lc_releases]
      push_cast
      omega

/-- **C7 (counterexample).** For the interleaving `[release, select]` over
a single instance we have J = 1 ≤ K = 1, but the final counter is `1`,
not `K − J = 0`: the release on a zero counter is clamped to a no-op. -/
theorem least_connection_counterexample :
    lc_releases [LCOp.release, LCOp.select] ≤ lc_selects [LCOp.release, LCOp.select] ∧
    lc_run [{ id := "i1", service_id := "s1", addr := "a1", status := .HEALTHY }] "i1"
      (fun _ => 0) [LCOp.release, LCOp.select] "i1" = 1 ∧
    (1 : Int) ≠ (lc_selects [LCOp.release, LCOp.select] : Int)
      - lc_releases [LCOp.release, LCOp.select] := by
  refine ⟨by decide, ?_, by decide⟩
  rfl

/-- **C7 (amended).** Over a single instance, the least-connection
counter is ≥ 0 after every prefix of any interleaving of `select` and
`release` calls, and whenever every prefix contains at least as many
selects as releases (so in particular J ≤ K overall), the final counter
equals K − J. -/
theorem least_connection_counter (inst : Instance) (ops : List LCOp) :
    (∀ (n : Nat) (k : String), 0 ≤ lc_run [inst] inst.id (fun _ => 0) (ops.take n) k) ∧
    ((∀ n : Nat, lc_releases (ops.take n) ≤ lc_selects (ops.take n)) →
      lc_run [inst] inst.id (fun _ => 0) ops inst.id
        = (lc_selects ops : Int) - lc_releases ops) := by
  constructor
  · intro n k
    exact lc_run_nonneg inst (ops.take n) (fun _ => 0) (fun _ => le_refl 0) k
  · intro hpre
    have := lc_run_value inst ops (fun _ => 0) (by
      intro n
      have := hpre n
      dsimp only
      omega)
    rw [this]
    dsimp only
    omega

/-! ### C3: round-robin selection and fairness -/

/-- Number of `k < n` with `(c + k) % M = j`. -/
def modCount (M j c n : Nat) : Nat :=
  ((Finset.range n).filter (fun k => (c + k) % M = j)).card

lemma modCount_split (M j c a b : Nat) :
    modCount M j c (a + b) = modCount M j c a + modCount M j (c + a) b := by
  have hdisj : Disjoint (Finset.range a)
      (Finset.map (addLeftEmbedding a) (Finset.range b)) := by
    rw [Finset.disjoint_left]
    intro x hx hx2
    rcases Finset.mem_map.1 hx2 with ⟨k, _, hk⟩
    have hxa := Finset.mem_range.1 hx
    have hax : a + k = x := hk
    omega
  rw [modCount, Finset.range_add, Finset.filter_union,
    Finset.card_union_of_disjoint (Finset.disjoint_filter_filter hdisj),
    Finset.filter_map, Finset.card_map]
  congr 1
  rw [modCount]
  congr 1
  apply Finset.filter_congr
  intro k _
  simp only [Function.comp, addLeftEmbedding_apply]
  rw [← Nat.add_assoc]

lemma modCount_window (M j c : Nat) (hj : j < M) : modCount M j c M = 1 := by
  have hM : 0 < M := lt_of_le_of_lt (Nat.zero_le j) hj
  have hrM : c % M < M := Nat.mod_lt _ hM
  have hk0M : (j + M - c % M) % M < M := Nat.mod_lt _ hM
  have hhit : (c + (j + M - c % M) % M) % M = j := by
    rw [Nat.add_mod_mod, ← Nat.mod_add_mod]
    have h2 : c % M + (j + M - c % M) = j + M := by omega
    rw [h2, Nat.add_mod_right, Nat.mod_eq_of_lt hj]
  rw [modCount, Finset.card_eq_one]
  refine ⟨(j + M - c % M) % M, ?_⟩
  ext k
  simp only [Finset.mem_filter, Finset.mem_range, Finset.mem_singleton]
  constructor
  · rintro ⟨hkM, hkj⟩
    have hmod : (c + k) % M = (c + (j + M - c % M) % M) % M := by rw [hkj, hhit]
    have h2 : k % M = (j + M - c % M) % M % M := Nat.ModEq.add_left_cancel' c hmod
    rw [Nat.mod_eq_of_lt hkM, Nat.mod_eq_of_lt hk0M] at h2
    exact h2
  · rintro rfl
    exact ⟨hk0M, hhit⟩

lemma modCount_le_one (M j c b : Nat) (hbM : b ≤ M) : modCount M j c b ≤ 1 := by
  rw [modCount, Finset.card_le_one]
  intro x hx y hy
  simp only [Finset.mem_filter, Finset.mem_range] at hx hy
  have hmod : (c + x) % M = (c + y) % M := by rw [hx.2, hy.2]
  have h2 : x % M = y % M := Nat.ModEq.add_left_cancel' c hmod
  rw [Nat.mod_eq_of_lt (lt_of_lt_of_le hx.1 hbM),
    Nat.mod_eq_of_lt (lt_of_lt_of_le hy.1 hbM)] at h2
  exact h2

lemma modCount_floor_or_ceil (M j : Nat) (hM : 0 < M) (hj : j < M) :
    ∀ (N c : Nat), modCount M j c N = N / M ∨ modCount M j c N = (N + M - 1) / M := by
  intro N
  induction N using Nat.strong_induction_on with
  | _ N ih =>
    intro c
    by_cases hNM : N < M
    · have hle := modCount_le_one M j c N (le_of_lt hNM)
      rcases Nat.lt_or_ge (modCount M j c N) 1 with h0 | h1
      · left
        have h00 : modCount M j c N = 0 := by omega
        rw [h00, Nat.div_eq_of_lt hNM]
      · have h1e : modCount M j c N = 1 := le_antisymm hle h1
        have hN0 : N ≠ 0 := by
          intro hN
          rw [hN] at h1e
          rw [modCount] at h1e
          simp at h1e
        right
        rw [h1e]
        symm
        apply Nat.div_eq_of_lt_le
        · omega
        · omega
    · push_neg at hNM
      have hNeq : N = M + (N - M) := by omega
      have hsplit : modCount M j c N = modCount M j c M + modCount M j (c + M) (N - M) := by
        conv_lhs => rw [hNeq]
        exact modCount_split M j c M (N - M)
      rw [hsplit, modCount_window M j c hj]
      rcases ih (N - M) (by omega) (c + M) with h | h
      · left
        rw [h]
        calc 1 + (N - M) / M = (N - M) / M + 1 := by omega
          _ = N / M := (Nat.div_eq_sub_div hM hNM).symm
      · right
        rw [h]
        have heq : N - M + M - 1 = N + M - 1 - M := by omega
        calc 1 + (N - M + M - 1) / M = (N + M - 1 - M) / M + 1 := by rw [heq]; omega
          _ = (N + M - 1) / M := (Nat.div_eq_sub_div hM (by omega)).symm

/-- Number of the `N` round-robin selections starting at shared counter
state `c` that pick index `j` of an `M`-instance list. -/
def rrHits (M c N j : Nat) : Nat :=
  ((Finset.range N).filter (fun k => rrIndex (c + k) M = j)).card

lemma rrHits_eq_modCount (M c N j : Nat) (hwrap : c % 1000000 + N ≤ 1000000) :
    rrHits M c N j = modCount M j (c % 1000000) N := by
  rw [rrHits, modCount]
  congr 1
  apply Finset.filter_congr
  intro k hk
  have hkN := Finset.mem_range.1 hk
  have hk6 : k < 1000000 := by omega
  have hlt : c % 1000000 + k < 1000000 := by omega
  have hmod : (c + k) % 1000000 = c % 1000000 + k := by
    rw [Nat.add_mod, Nat.mod_eq_of_lt hk6, Nat.mod_eq_of_lt hlt]
  rw [rrIndex, hmod]

/-- **C3 (counterexample).** The round-robin counter is the cycling
`itertools.cycle(range(1_000_000))`, not an unbounded monotonic counter:
at counter state 999999 over a stable 3-instance list, the next two
selections both return the first instance, so in that window of N = 2
selections the first instance is selected 2 times, which is neither
⌊2/3⌋ = 0 nor ⌈2/3⌉ = 1; with a truly monotonic counter the second
selection would have been `instances[1000000 % 3]`, the second instance. -/
theorem round_robin_counterexample :
    rr_select_instance
        [⟨"A", "s1", "a:1", .HEALTHY⟩, ⟨"B", "s1", "a:2", .HEALTHY⟩,
         ⟨"C", "s1", "a:3", .HEALTHY⟩] 999999
      = .ok (⟨"A", "s1", "a:1", .HEALTHY⟩, 1000000) ∧
    rr_select_instance
        [⟨"A", "s1", "a:1", .HEALTHY⟩, ⟨"B", "s1", "a:2", .HEALTHY⟩,
         ⟨"C", "s1", "a:3", .HEALTHY⟩] 1000000
      = .ok (⟨"A", "s1", "a:1", .HEALTHY⟩, 1000001) ∧
    rrHits 3 999999 2 0 = 2 ∧
    ¬((2 : Nat) = 2 / 3 ∨ (2 : Nat) = (2 + 3 - 1) / 3) := by
  refine ⟨by decide, by decide, by decide, by decide⟩

/-- **C3 (amended).** Round-robin keeps one process-wide shared counter
that cycles through `0, …, 999999`; a selection at counter state `c`
over a non-empty instance list returns
`instances[(c % 1000000) % len(instances)]` and advances the counter
once; consequently, for any run of `N` selections over a stable
`M`-instance set that does not cross the `1000000` wrap of the cycling
counter, every index is selected either ⌊N/M⌋ or ⌈N/M⌉ times. -/
theorem round_robin_select_and_fairness (instances : List Instance) (c N j : Nat)
    (hne : instances ≠ []) (hj : j < instances.length)
    (hwrap : c % 1000000 + N ≤ 1000000) :
    (∀ k : Nat, rr_select_instance instances (c + k)
        = .ok (instances.getD (rrIndex (c + k) instances.length) instDefault, (c + k) + 1)) ∧
    (rrHits instances.length c N j = N / instances.length ∨
      rrHits instances.length c N j
        = (N + instances.length - 1) / instances.length) := by
  have hM : 0 < instances.length := List.length_pos.2 hne
  constructor
  · intro k
    rw [rr_select_instance, if_neg (by simpa [List.isEmpty_iff] using hne)]
  · rw [rrHits_eq_modCount _ _ _ _ hwrap]
    exact modCount_floor_or_ceil instances.length j hM hj N (c % 1000000)

/-! ### C2: the factory does not dispatch weighted round-robin -/

/-- **C2.** `AlgorithmFactory._algorithms` has no entry for
`WEIGHTED_ROUND_ROBIN`, although it is a declared `Algorithm` tag with an
implementation: `get_algorithm` raises `ValueError` for it exactly as for
an unknown tag (contradicting the repository test
`test_get_weighted_round_robin_algorithm`), while the three registered
tags dispatch fine; the `WeightedRoundRobinAlgorithm` implementation
itself does follow the weight-expansion semantics (instances `[a, b]`
expand to `[a, b, b]` under the positional weights 1, 2, and counter
states 0 and 2 select `a` and `b`). -/
theorem weighted_round_robin_not_dispatched :
    get_algorithm_tag Algorithm.WEIGHTED_ROUND_ROBIN = .error "Algorithm not supported" ∧
    get_algorithm_tag .ROUND_ROBIN = .ok .ROUND_ROBIN ∧
    get_algorithm_tag .IP_HASH = .ok .IP_HASH ∧
    get_algorithm_tag .LEAST_CONNECTION = .ok .LEAST_CONNECTION ∧
    wrrExpansion [⟨"a", "s1", "h:1", .HEALTHY⟩, ⟨"b", "s1", "h:2", .HEALTHY⟩]
      = [⟨"a", "s1", "h:1", .HEALTHY⟩, ⟨"b", "s1", "h:2", .HEALTHY⟩,
         ⟨"b", "s1", "h:2", .HEALTHY⟩] ∧
    wrr_select_instance [⟨"a", "s1", "h:1", .HEALTHY⟩, ⟨"b", "s1", "h:2", .HEALTHY⟩] 0
      = .ok (⟨"a", "s1", "h:1", .HEALTHY⟩, 1) ∧
    wrr_select_instance [⟨"a", "s1", "h:1", .HEALTHY⟩, ⟨"b", "s1", "h:2", .HEALTHY⟩] 2
      = .ok (⟨"b", "s1", "h:2", .HEALTHY⟩, 3) := by
  refine ⟨by decide, by decide, by decide, by decide, by decide, by decide, by decide⟩

/-! ### C1: forward failure is swallowed as a 502, not signalled -/

/-- **C1.** `forward_request` catches the `requests.RequestException` of
a failed or timed-out upstream connection and returns a 502 response
instead of signalling the failure to the Router (the repository test
`test_forward_request_error` expects the exception to propagate): in the
failover scenario with instance `A` down and `B` up, the routed request
returns `A`'s synthesized 502 to the client, `B` is never forwarded to,
and the client does not receive `B`'s 200. -/
theorem upstream_failure_swallowed_as_502 :
    forward_request (.exn "Connection refused")
      = { status := 502, headers := [],
          body := "Error forwarding request: Connection refused" } ∧
    (route_with_retries (select_instance_round_robin 0)
        (fun i => .ok (forward_request
          (if i.id = "A" then .exn "Connection refused" else .resp 200 [] "ok")))
        (fun _ => true) false 2
        [⟨"A", "s1", "h:1", .HEALTHY⟩, ⟨"B", "s1", "h:2", .HEALTHY⟩] [] none).2.status
      = 502 ∧
    fwdIds (route_with_retries (select_instance_round_robin 0)
        (fun i => .ok (forward_request
          (if i.id = "A" then .exn "Connection refused" else .resp 200 [] "ok")))
        (fun _ => true) false 2
        [⟨"A", "s1", "h:1", .HEALTHY⟩, ⟨"B", "s1", "h:2", .HEALTHY⟩] [] none).1
      = ["A"] := by
  refine ⟨by decide, by decide, by decide⟩

/-! ### C4: IP-hash with an empty client IP surfaces as 503, not 500 -/

/-- **C4 (counterexample).** With a healthy instance, an IP-hash service
and an empty client IP, `IpHashAlgorithm.__init__` raises, the Router
catches the error inside `_select_instance` (returning `None`), the
retry loop breaks immediately, and the client receives
`503 All instances failed to process the request` — not a 500. -/
theorem ip_hash_empty_ip_counterexample :
    ip_hash_select_instance (fun _ => 0) [⟨"A", "s1", "h:1", .HEALTHY⟩] ""
      = .error "Client IP is required for IP Hash algorithm" ∧
    (route_with_retries
        (fun avail => select_instance_ip_hash (fun _ => 0) avail "")
        (fun _ => .ok { status := 200, headers := [], body := "ok" })
        (fun _ => true) false 1 [⟨"A", "s1", "h:1", .HEALTHY⟩] [] none).2
      = { status := 503, headers := [],
          body := "All instances failed to process the request" } ∧
    ¬((503 : Nat) = 500) := by
  refine ⟨by decide, by decide, by decide⟩

/-- **C4 (amended).** For every IP-hash service, hash function, instance
list and fuel, selection with an empty client IP fails with the
missing-client-IP `ValueError` (caught by `_select_instance`, which
yields `None`), and the routed request is answered with the 503
`All instances failed to process the request` response rather than a
500. -/
theorem ip_hash_empty_ip_returns_503 (hash : String → Nat) (instances : List Instance)
    (fuel : Nat) (forward : Instance → Except String Response) (regOk : String → Bool) :
    select_instance_ip_hash hash instances "" = none ∧
    (route_with_retries (fun avail => select_instance_ip_hash hash avail "")
        forward regOk false fuel instances [] none).2
      = { status := 503, headers := [],
          body := "All instances failed to process the request" } := by
  have hsel : ∀ l : List Instance, select_instance_ip_hash hash l "" = none := by
    intro l
    rw [select_instance_ip_hash, ip_hash_select_instance, if_pos rfl]
  refine ⟨hsel instances, ?_⟩
  cases fuel with
  | zero =>
    rw [route_with_retries]
    simp [all_failed_response]
  | succ fuel =>
    rw [route_with_retries]
    by_cases hne : instances.isEmpty = true
    · rw [if_pos hne]
      simp [all_failed_response]
    · rw [if_neg hne]
      dsimp only
      rw [hsel instances]
      simp [all_failed_response]

/-! ### Witnesses -/

/-- Witness for `header_hygiene` at a concrete request and response. -/
theorem header_hygiene_witness :
    (("X-Real-IP", "9.9.9.9") ∈ prepare_headers
        [("Connection", "keep-alive"), ("X-Real-IP", "9.9.9.9")] "b:1") ∧
    ¬ hop_by_hop_headers.contains (str_lower "X-Real-IP") ∧
    (("Content-Type", "t") ∈ prepare_response_headers
        [("Content-Type", "t"), ("Content-Length", "3")]) ∧
    ¬ excluded_response_headers.contains (str_lower "Content-Type") :=
  ⟨by decide,
   header_hygiene.1 [("Connection", "keep-alive"), ("X-Real-IP", "9.9.9.9")] "b:1"
     ("X-Real-IP", "9.9.9.9") (by decide),
   by decide,
   header_hygiene.2 [("Content-Type", "t"), ("Content-Length", "3")]
     ("Content-Type", "t") (by decide)⟩

/-- Witness for `sticky_lookup_after_remember` with the default TTL of
300 s, a remember at t = 100 and a lookup at t = 150. -/
theorem sticky_lookup_after_remember_witness :
    (0 : Int) < (300 : Int) ∧
    (((get_sticky_instance (set_sticky_instance
          { sessions := fun _ => none, timeout := 300, cleanupInterval := 60,
            lastCleanupTime := 0 }
          "1.2.3.4" "svc" "i1" 100) "1.2.3.4" "svc" 150).1 = some "i1") ↔
      (150 : Int) - 100 < 300) :=
  ⟨by decide,
   (sticky_lookup_after_remember
     { sessions := fun _ => none, timeout := 300, cleanupInterval := 60,
       lastCleanupTime := 0 }
     "1.2.3.4" "svc" "i1" 100 150 (by decide)).1⟩

/-- Witness for `least_connection_counter` on the interleaving
`[select, select, release]`. -/
theorem least_connection_counter_witness :
    (∀ n : Nat, lc_releases ([LCOp.select, LCOp.select, LCOp.release].take n)
        ≤ lc_selects ([LCOp.select, LCOp.select, LCOp.release].take n)) ∧
    lc_run [⟨"i1", "s1", "h:1", .HEALTHY⟩] "i1" (fun _ => 0)
        [LCOp.select, LCOp.select, LCOp.release] "i1"
      = (lc_selects [LCOp.select, LCOp.select, LCOp.release] : Int)
        - lc_releases [LCOp.select, LCOp.select, LCOp.release] := by
  have hpre : ∀ n : Nat, lc_releases ([LCOp.select, LCOp.select, LCOp.release].take n)
      ≤ lc_selects ([LCOp.select, LCOp.select, LCOp.release].take n) := by
    intro n
    rcases n with _ | _ | _ | n
    · decide
    · decide
    · decide
    · rw [List.take_of_length_le (by simp)]
      decide
  exact ⟨hpre,
    (least_connection_counter ⟨"i1", "s1", "h:1", .HEALTHY⟩
      [LCOp.select, LCOp.select, LCOp.release]).2 hpre⟩

/-- Witness for `round_robin_select_and_fairness`: 4 selections over 3
instances from counter state 0. -/
theorem round_robin_fairness_witness :
    ([(⟨"A", "s1", "h:1", .HEALTHY⟩ : Instance), ⟨"B", "s1", "h:2", .HEALTHY⟩,
        ⟨"C", "s1", "h:3", .HEALTHY⟩] ≠ ([] : List Instance)) ∧
    ((0 : Nat) % 1000000 + 4 ≤ 1000000) ∧
    (rrHits 3 0 4 0 = 4 / 3 ∨ rrHits 3 0 4 0 = (4 + 3 - 1) / 3) :=
  ⟨by decide, by decide,
   (round_robin_select_and_fairness
     [⟨"A", "s1", "h:1", .HEALTHY⟩, ⟨"B", "s1", "h:2", .HEALTHY⟩,
      ⟨"C", "s1", "h:3", .HEALTHY⟩] 0 4 0 (by decide) (by decide) (by decide)).2⟩

/-- Witness for `failed_instance_marked_and_never_retried`: one instance
whose forward fails is marked unhealthy in the trace. -/
theorem failed_instance_marked_witness :
    (Ev.fwd "A" (.error "boom") ∈
      (route_with_retries (fun l => l.head?) (fun _ => .error "boom") (fun _ => true)
        false 1 [⟨"A", "s1", "h:1", .HEALTHY⟩] [] none).1) ∧
    (Ev.mark "A" .UNHEALTHY true ∈
      (route_with_retries (fun l => l.head?) (fun _ => .error "boom") (fun _ => true)
        false 1 [⟨"A", "s1", "h:1", .HEALTHY⟩] [] none).1) :=
  ⟨by decide,
   (failed_instance_marked_and_never_retried (fun l => l.head?) (fun _ => .error "boom")
     (fun _ => true) false 1 [⟨"A", "s1", "h:1", .HEALTHY⟩] [] none).2
     "A" "boom" (by decide)⟩

/-- Witness for `core_status_writes_never_unknown`: a probe pass writing
`HEALTHY` over a stored `UNKNOWN`. -/
theorem core_status_writes_witness :
    (check_instance_status_write .UNKNOWN [true] 3 = some .HEALTHY) ∧
    (InstanceStatus.HEALTHY = .HEALTHY ∨ InstanceStatus.HEALTHY = .UNHEALTHY) :=
  ⟨by decide,
   core_status_writes_never_unknown.1 .UNKNOWN [true] 3 .HEALTHY (by decide)⟩

end LB
